import Mathlib

/-!
Verification development for a Telegram TUI message scheduler (src/main.py).

The Python source is shallowly embedded: Python strings become `List Char`,
`datetime.datetime` becomes a six-field `DateTime` record with lexicographic
comparison, fallible Python operations (int(), datetime(), strptime) become
`Option`-valued functions, and the network side effects of the pagination /
delivery / job-running code are made explicit (a fetch function parameter, a
returned list of send calls, a returned status report).
-/

namespace Shellgramm

/-- Convert a Lean string literal to the `List Char` representation used for
Python strings throughout this development. -/
def strL (s : String) : List Char := s.toList

/-- Python `str.strip()` whitespace test (ASCII whitespace). -/
def isPySpace (c : Char) : Bool :=
  c = ' ' || c = '\t' || c = '\n' || c = '\r' || c = '\x0b' || c = '\x0c'

/-- Python `str.strip()`: drop whitespace from both ends. -/
def pyStrip (s : List Char) : List Char :=
  ((s.dropWhile isPySpace).reverse.dropWhile isPySpace).reverse

/-- Helper for `splitOnChar`: accumulate the current field (reversed). -/
def splitAux (sep : Char) : List Char → List Char → List (List Char)
  | [], acc => [acc.reverse]
  | c :: cs, acc =>
    if c = sep then acc.reverse :: splitAux sep cs []
    else splitAux sep cs (c :: acc)

/-- Python `s.split(sep)` for a one-character separator: `"a:b" ↦ ["a","b"]`,
`":" ↦ ["",""]`, `"ab" ↦ ["ab"]`. -/
def splitOnChar (sep : Char) (s : List Char) : List (List Char) :=
  splitAux sep s []

/-- Decimal digit value of a character, if it is `'0'..'9'`. -/
def digit? (c : Char) : Option Nat :=
  if 48 ≤ c.toNat ∧ c.toNat ≤ 57 then some (c.toNat - 48) else none

/-- Value of a nonempty all-digit string (the digits of a Python int literal). -/
def digitsToNat? (ds : List Char) : Option Nat :=
  if ds = [] then none
  else ds.foldl (fun acc c => acc.bind fun a => (digit? c).map fun d => a * 10 + d) (some 0)

/-- Python `int(s)` on a string: strip whitespace, optional sign, digits;
`none` models the `ValueError` raised on anything else. -/
def pyInt? (s : List Char) : Option Int :=
  match pyStrip s with
  | [] => none
  | c :: cs =>
    if c.toNat = 43 then (digitsToNat? cs).map Int.ofNat
    else if c.toNat = 45 then (digitsToNat? cs).map (fun n => -(n : Int))
    else (digitsToNat? (c :: cs)).map Int.ofNat

/-! ## Dates and times -/

/-- Python `datetime.datetime` (naive): six calendar fields. -/
structure DateTime where
  year : Nat
  month : Nat
  day : Nat
  hour : Nat
  minute : Nat
  second : Nat
deriving DecidableEq, Repr

/-- Python `datetime.date` (the value of `date.today()`). -/
structure Date where
  year : Nat
  month : Nat
  day : Nat
deriving DecidableEq, Repr

/-- Gregorian leap-year rule, as used by `datetime`. -/
def isLeap (y : Nat) : Bool :=
  y % 4 = 0 && (y % 100 ≠ 0 || y % 400 = 0)

/-- Number of days in a month, as enforced by the `datetime` constructor. -/
def daysInMonth (y m : Nat) : Nat :=
  if m = 2 then (if isLeap y then 29 else 28)
  else if m = 4 ∨ m = 6 ∨ m = 9 ∨ m = 11 then 30
  else 31

/-- The ranges `date.today()` always satisfies. -/
def ValidDate (d : Date) : Prop :=
  1 ≤ d.year ∧ d.year ≤ 9999 ∧ 1 ≤ d.month ∧ d.month ≤ 12 ∧
    1 ≤ d.day ∧ d.day ≤ daysInMonth d.year d.month

instance : DecidablePred ValidDate := fun d => by unfold ValidDate; infer_instance

/-- Python `datetime(year, month, day, hour, minute, second)`: validates every
field, `none` models the `ValueError` on an out-of-range component. -/
def mkDatetime? (year month day hour minute second : Int) : Option DateTime :=
  if 1 ≤ year ∧ year ≤ 9999 ∧ 1 ≤ month ∧ month ≤ 12 ∧
      1 ≤ day ∧ day ≤ (daysInMonth year.toNat month.toNat : Int) ∧
      0 ≤ hour ∧ hour ≤ 23 ∧ 0 ≤ minute ∧ minute ≤ 59 ∧ 0 ≤ second ∧ second ≤ 59
  then some ⟨year.toNat, month.toNat, day.toNat, hour.toNat, minute.toNat, second.toNat⟩
  else none

/-- Comparison of two naive `datetime` values (field-lexicographic, which is
timeline order for valid dates). -/
def dtCompare (a b : DateTime) : Ordering :=
  (compare a.year b.year).then <| (compare a.month b.month).then <|
    (compare a.day b.day).then <| (compare a.hour b.hour).then <|
      (compare a.minute b.minute).then (compare a.second b.second)

/-- Python `a < b` on datetimes. -/
def dtLtB (a b : DateTime) : Bool := dtCompare a b = Ordering.lt

/-- Python `a <= b` on datetimes. -/
def dtLeB (a b : DateTime) : Bool := dtCompare a b ≠ Ordering.gt

/-- Python `dt + timedelta(days=1)` expressed on calendar fields (equivalent
for valid datetimes: advance the day, rolling over month and year). -/
def addOneDay (d : DateTime) : DateTime :=
  if d.day < daysInMonth d.year d.month then { d with day := d.day + 1 }
  else if d.month < 12 then { d with month := d.month + 1, day := 1 }
  else { d with year := d.year + 1, month := 1, day := 1 }

/-! ## `parse_datetime` (src/main.py lines 222-260)

The colon branch of the Python function is factored into `colonParse`
(splitting and `int()` conversion, which never touches `date.today()`)
followed by the `datetime(...)` construction; a failure anywhere in the
branch falls through to the two `strptime` formats, exactly as the
`try/except` in the source does. -/

/-- Result of the `s.split(":")` branch of `parse_datetime`: which shape
matched and the `int()` values, or fall-through to the date formats. -/
inductive ColonParse where
  | hm (hh mm : Int)
  | hms (hh mm ss : Int)
  | skip
deriving DecidableEq, Repr

/-- The colon branch of `parse_datetime` up to (not including) the
`datetime(...)` construction. -/
def colonParse (s : List Char) : ColonParse :=
  match splitOnChar ':' s with
  | [hh, mm] =>
    match pyInt? hh, pyInt? mm with
    | some h, some m => .hm h m
    | _, _ => .skip
  | [hh, mm, ss] =>
    if s.contains ' ' then .skip
    else
      match pyInt? hh, pyInt? mm, pyInt? ss with
      | some h, some m, some se => .hms h m se
      | _, _, _ => .skip
  | _ => .skip

/-! `strptime` for the two date formats, following CPython `_strptime`:
`%Y` is exactly four digits; `%m` matches `1[0-2]|0[1-9]|[1-9]`;
`%d` matches `3[01]|[12]\d|0[1-9]|[1-9]`; `%H` matches `2[0-3]|[01]\d|\d`;
`%M` matches `[0-5]\d|\d`; the whole string must be consumed, and the
resulting fields go through the `datetime` constructor. -/

/-- Parse one decimal digit. -/
def pDigit : List Char → Option (Nat × List Char)
  | c :: cs => if 48 ≤ c.toNat ∧ c.toNat ≤ 57 then some (c.toNat - 48, cs) else none
  | [] => none

/-- Parse exactly four digits (`%Y`). -/
def pYear4 (s : List Char) : Option (Nat × List Char) := do
  let (a, s) ← pDigit s
  let (b, s) ← pDigit s
  let (c, s) ← pDigit s
  let (d, s) ← pDigit s
  pure (a * 1000 + b * 100 + c * 10 + d, s)

/-- Parse a literal character. -/
def pLit (c : Char) : List Char → Option (List Char)
  | d :: cs => if d = c then some cs else none
  | [] => none

/-- `%m`: regex alternatives in order. -/
def pMonth : List Char → Option (Nat × List Char)
  | [] => none
  | c :: rest =>
    if c.toNat = 49 then
      match rest with
      | c2 :: r =>
        if 48 ≤ c2.toNat ∧ c2.toNat ≤ 50 then some (10 + (c2.toNat - 48), r)
        else some (1, c2 :: r)
      | [] => some (1, [])
    else if c.toNat = 48 then
      match rest with
      | c2 :: r => if 49 ≤ c2.toNat ∧ c2.toNat ≤ 57 then some (c2.toNat - 48, r) else none
      | [] => none
    else if 50 ≤ c.toNat ∧ c.toNat ≤ 57 then some (c.toNat - 48, rest)
    else none

/-- `%d`: regex alternatives in order. -/
def pDay : List Char → Option (Nat × List Char)
  | [] => none
  | c :: rest =>
    if c.toNat = 51 then
      match rest with
      | c2 :: r =>
        if 48 ≤ c2.toNat ∧ c2.toNat ≤ 49 then some (30 + (c2.toNat - 48), r)
        else some (3, c2 :: r)
      | [] => some (3, [])
    else if 49 ≤ c.toNat ∧ c.toNat ≤ 50 then
      match rest with
      | c2 :: r =>
        if 48 ≤ c2.toNat ∧ c2.toNat ≤ 57 then
          some ((c.toNat - 48) * 10 + (c2.toNat - 48), r)
        else some (c.toNat - 48, c2 :: r)
      | [] => some (c.toNat - 48, [])
    else if c.toNat = 48 then
      match rest with
      | c2 :: r => if 49 ≤ c2.toNat ∧ c2.toNat ≤ 57 then some (c2.toNat - 48, r) else none
      | [] => none
    else if 52 ≤ c.toNat ∧ c.toNat ≤ 57 then some (c.toNat - 48, rest)
    else none

/-- `%H`: regex alternatives in order. -/
def pHour : List Char → Option (Nat × List Char)
  | [] => none
  | c :: rest =>
    if c.toNat = 50 then
      match rest with
      | c2 :: r =>
        if 48 ≤ c2.toNat ∧ c2.toNat ≤ 51 then some (20 + (c2.toNat - 48), r)
        else some (2, c2 :: r)
      | [] => some (2, [])
    else if 48 ≤ c.toNat ∧ c.toNat ≤ 49 then
      match rest with
      | c2 :: r =>
        if 48 ≤ c2.toNat ∧ c2.toNat ≤ 57 then
          some ((c.toNat - 48) * 10 + (c2.toNat - 48), r)
        else some (c.toNat - 48, c2 :: r)
      | [] => some (c.toNat - 48, [])
    else if 51 ≤ c.toNat ∧ c.toNat ≤ 57 then some (c.toNat - 48, rest)
    else none

/-- `%M`: regex alternatives in order. -/
def pMinute : List Char → Option (Nat × List Char)
  | [] => none
  | c :: rest =>
    if 48 ≤ c.toNat ∧ c.toNat ≤ 53 then
      match rest with
      | c2 :: r =>
        if 48 ≤ c2.toNat ∧ c2.toNat ≤ 57 then
          some ((c.toNat - 48) * 10 + (c2.toNat - 48), r)
        else some (c.toNat - 48, c2 :: r)
      | [] => some (c.toNat - 48, [])
    else if 54 ≤ c.toNat ∧ c.toNat ≤ 57 then some (c.toNat - 48, rest)
    else none

/-- `datetime.strptime(s, "%Y-%m-%d %H:%M")`. -/
def strptimeYmdHM (s : List Char) : Option DateTime := do
  let (y, s1) ← pYear4 s
  let s2 ← pLit '-' s1
  let (mo, s3) ← pMonth s2
  let s4 ← pLit '-' s3
  let (d, s5) ← pDay s4
  let s6 ← pLit ' ' s5
  let (h, s7) ← pHour s6
  let s8 ← pLit ':' s7
  let (mi, s9) ← pMinute s8
  if s9 = [] then mkDatetime? y mo d h mi 0 else none

/-- `datetime.strptime(s, "%d.%m.%Y %H:%M")`. -/
def strptimeDmyHM (s : List Char) : Option DateTime := do
  let (d, s1) ← pDay s
  let s2 ← pLit '.' s1
  let (mo, s3) ← pMonth s2
  let s4 ← pLit '.' s3
  let (y, s5) ← pYear4 s4
  let s6 ← pLit ' ' s5
  let (h, s7) ← pHour s6
  let s8 ← pLit ':' s7
  let (mi, s9) ← pMinute s8
  if s9 = [] then mkDatetime? y mo d h mi 0 else none

/-- `parse_datetime` (src/main.py lines 222-260), with `date.today()` passed
explicitly as `today`. -/
def parse_datetime (today : Date) (user_text : List Char) : Option DateTime :=
  let s := pyStrip user_text
  let viaColon : Option DateTime :=
    match colonParse s with
    | .hm hh mm => mkDatetime? (today.year : Int) (today.month : Int) (today.day : Int) hh mm 0
    | .hms hh mm ss =>
      mkDatetime? (today.year : Int) (today.month : Int) (today.day : Int) hh mm ss
    | .skip => none
  match viaColon with
  | some dt => some dt
  | none =>
    match strptimeYmdHM s with
    | some dt => some dt
    | none => strptimeDmyHM s

/-! ## Forum topic pagination (src/main.py lines 157-217)

`get_all_forum_topics` is embedded with the Telegram client abstracted as a
pure function `fetch` from the cursor triple sent in
`GetForumTopicsRequest` to the response (`topics` plus `messages`).  The
`while True` loop gets an explicit fuel parameter (`none` = fuel ran out
before the loop terminated) and, to make round-trips observable, the result
carries the list of cursors requested, in order. -/

/-- The `TopicInfo` dataclass (src/main.py lines 78-84). -/
structure TopicInfo where
  id : Int
  title : List Char
  unread_count : Int
  pinned : Bool
  closed : Bool
deriving DecidableEq, Repr

/-- A raw topic object from the paged API: `title` is `none` when the
attribute is absent/None (and the empty list models `""`, also falsy). -/
structure RawTopic where
  id : Int
  title : Option (List Char)
  unread_count : Int
  pinned : Bool
  closed : Bool
  top_message : Int
deriving DecidableEq, Repr

/-- A raw message from the response's accompanying `messages` list:
`date = none` models an absent or non-`datetime` date attribute. -/
structure RawMessage where
  id : Int
  date : Option DateTime
deriving DecidableEq, Repr

/-- One page returned by `GetForumTopicsRequest`. -/
structure FetchResult where
  topics : List RawTopic
  messages : List RawMessage
deriving DecidableEq, Repr

/-- The cursor triple sent with each request. -/
structure Cursor where
  offset_date : Option DateTime
  offset_id : Int
  offset_topic : Int
deriving DecidableEq, Repr

/-- The body of the `for t in topics` loop: skip topics whose `title`
attribute is missing or falsy (`if not title: continue`), otherwise build a
`TopicInfo`. -/
def topicInfoOfRaw? (t : RawTopic) : Option TopicInfo :=
  match t.title with
  | none => none
  | some tt => if tt = [] then none else some ⟨t.id, tt, t.unread_count, t.pinned, t.closed⟩

/-- Python `x.lower()` on our ASCII model of strings. -/
def pyLowerChar (c : Char) : Char :=
  if 65 ≤ c.toNat ∧ c.toNat ≤ 90 then Char.ofNat (c.toNat + 32) else c

/-- Python string `<=` (lexicographic on code points). -/
def lexLe : List Char → List Char → Bool
  | [], _ => true
  | _ :: _, [] => false
  | a :: as, b :: bs =>
    if a.toNat < b.toNat then true
    else if b.toNat < a.toNat then false
    else lexLe as bs

/-- First component of the sort key of line 216: `not x.pinned` (Python
`False < True`, encoded as `0 < 1`). -/
def pinRank (x : TopicInfo) : Nat := if x.pinned then 0 else 1

/-- The sort key comparison of line 216: `(not x.pinned, x.title.lower())`,
compared as Python tuples (so pinned topics — key component 0 — first). -/
def topicKeyLe (a b : TopicInfo) : Bool :=
  if pinRank a = pinRank b then lexLe (a.title.map pyLowerChar) (b.title.map pyLowerChar)
  else decide (pinRank a < pinRank b)

/-- `topicKeyLe` as a relation, for the sort. -/
def TopicLe (a b : TopicInfo) : Prop := topicKeyLe a b = true

instance : DecidableRel TopicLe := fun a b => by unfold TopicLe; infer_instance

/-- `all_topics.sort(key=lambda x: (not x.pinned, x.title.lower()))`:
Python's sort is stable; `List.insertionSort` with this total relation is a
stable sort producing the same list. -/
def sortTopics (l : List TopicInfo) : List TopicInfo :=
  List.insertionSort TopicLe l

/-- The `while True` loop of `get_all_forum_topics` with explicit cursor
arguments, accumulator, and fuel.  Returns the accumulated (unsorted)
`TopicInfo`s and the list of cursors requested. -/
def gaftLoop (fetch : Cursor → FetchResult) (limit : Nat) :
    Nat → Cursor → List TopicInfo → Option (List TopicInfo × List Cursor)
  | 0, _, _ => none
  | fuel + 1, cur, acc =>
    let res := fetch cur
    match res.topics with
    | [] => some (acc, [cur])
    | t0 :: rest =>
      let topics := t0 :: rest
      let acc2 := acc ++ topics.filterMap topicInfoOfRaw?
      if topics.length < limit then some (acc2, [cur])
      else
        let last := topics.getLast (List.cons_ne_nil t0 rest)
        let offset_topic := last.id
        let offset_id := last.top_message
        let offset_date := (res.messages.find? (fun m => m.id == offset_id)).bind (·.date)
        match gaftLoop fetch limit fuel ⟨offset_date, offset_id, offset_topic⟩ acc2 with
        | none => none
        | some (ts, log) => some (ts, cur :: log)

/-- `get_all_forum_topics` (src/main.py lines 157-217): start from the zero
cursor, loop, then sort.  The second component of the result is the list of
cursors requested (its length is the number of fetch round-trips). -/
def get_all_forum_topics (fetch : Cursor → FetchResult) (limit : Nat) (fuel : Nat) :
    Option (List TopicInfo × List Cursor) :=
  (gaftLoop fetch limit fuel ⟨none, 0, 0⟩ []).map (fun p => (sortTopics p.1, p.2))

/-! ## Delivery (src/main.py lines 93-103 and 288-301) -/

/-- The `DialogInfo` dataclass; the opaque `raw_entity` handle is represented
by the dialog id. -/
structure DialogInfo where
  id : Int
  title : List Char
  kind : List Char
  is_forum : Bool
deriving DecidableEq, Repr

/-- The `SendTarget` dataclass. -/
structure SendTarget where
  dialog : DialogInfo
  topic_id : Option Int := none
  topic_title : Option (List Char) := none
deriving DecidableEq, Repr

/-- `SendTarget.label` (lines 99-103): `if self.topic_id and self.topic_id != 1`
(Python truthiness: `None` and `0` are falsy). -/
def SendTarget.label (t : SendTarget) : List Char :=
  match t.topic_id with
  | some tid =>
    if tid ≠ 0 ∧ tid ≠ 1 then
      t.dialog.title ++ strL (" / ") ++ (t.topic_title.getD (strL ("Тема")))
    else t.dialog.title
  | none => t.dialog.title

/-- One external `client.send_message` call. -/
inductive SendCall where
  | plain (peer : Int) (text : List Char)
  | reply (peer : Int) (text : List Char) (reply_to : Int)
deriving DecidableEq, Repr

/-- `send_text_to_target` (lines 288-301), returning the list of external
send calls it issues.  The guard is `if target.topic_id and
target.topic_id != 1`: a `None` or `0` topic id is falsy and routes to the
plain branch. -/
def send_text_to_target (target : SendTarget) (text : List Char) : List SendCall :=
  match target.topic_id with
  | some tid =>
    if tid ≠ 0 ∧ tid ≠ 1 then [.reply target.dialog.id text tid]
    else [.plain target.dialog.id text]
  | none => [.plain target.dialog.id text]

/-! ## Scheduling (src/main.py lines 106-110, 605-651) -/

/-- The `ScheduledJob` dataclass. -/
structure ScheduledJob where
  target : SendTarget
  text : List Char
  when : DateTime
deriving DecidableEq, Repr

/-- `schedule_message_from_ui` (lines 605-631), reduced to its data content:
given the corrected current time, `date.today()`, the raw time text and the
raw message text, return the `when` of the job it creates (`none` when the
text is empty after stripping or the time text does not parse, in which case
no job is created). -/
def schedule_message_from_ui (corrected_now : DateTime) (today : Date)
    (when_str text : List Char) : Option DateTime :=
  if pyStrip text = [] then none
  else
    match parse_datetime today when_str with
    | none => none
    | some w =>
      let is_time_only : Bool :=
        when_str.contains ':' && !when_str.contains ' '
          && decide ((pyStrip when_str).length ≤ 8)
      if is_time_only && dtLeB w corrected_now then some (addOneDay w) else some w

/-- Outcome of the `await asyncio.sleep(delay)` in `_run_job`: either the
sleep completes, or the task is cancelled during it. -/
inductive SleepOutcome where
  | completes
  | cancelled
deriving DecidableEq, Repr

/-- A status-bar report made by `_run_job`. -/
inductive Status where
  | sent (label : List Char)
  | sendError (label : List Char)
deriving DecidableEq, Repr

/-- Observable behaviour of one `_run_job` execution unit. -/
structure RunJobResult where
  sends : List SendCall
  status : Option Status
  raised : Bool
deriving DecidableEq, Repr

/-- `_run_job` (lines 636-651).  `corrected_now` is the corrected time when
the unit starts, `sleepOut` is what happens during the sleep (only reached
when `delay > 0`, i.e. `corrected_now < job.when`), `sendFails` tells
whether the external send raises.  A `CancelledError` during the sleep is
caught and the unit returns with no send and no status; a send failure is
caught and reported as a status.  No path re-raises to the task runner. -/
def run_job (corrected_now : DateTime) (sleepOut : SleepOutcome) (sendFails : Bool)
    (job : ScheduledJob) : RunJobResult :=
  let sendPhase : RunJobResult :=
    let calls := send_text_to_target job.target job.text
    if sendFails then { sends := calls, status := some (.sendError job.target.label), raised := false }
    else { sends := calls, status := some (.sent job.target.label), raised := false }
  if dtLtB corrected_now job.when then
    match sleepOut with
    | .cancelled => { sends := [], status := none, raised := false }
    | .completes => sendPhase
  else sendPhase

/-! ## Scheduler state and the cleanup loop (src/main.py lines 441-468) -/

/-- The scheduler-owned state the claims are about: `self.jobs`. -/
structure SchedState where
  jobs : List ScheduledJob
deriving DecidableEq, Repr

/-- How one `_run_job` unit can end. -/
inductive JobOutcome where
  | delivered
  | deliveryFailed
  | cancelledEarly
deriving DecidableEq, Repr

/-- The operations that touch the scheduler state. -/
inductive SchedOp where
  | opSchedule (j : ScheduledJob)
  | opJobDone (j : ScheduledJob) (o : JobOutcome)
  | opSweep (now : DateTime)
deriving DecidableEq, Repr

/-- State effect of each operation, read off the source:
`schedule_message_from_ui` appends the new job (line 624); `_run_job` never
touches `self.jobs` (its only writes are the status bar, lines 636-651); one
cleanup sweep keeps `[j for j in self.jobs if j.when > now]` (line 461). -/
def applySchedOp (s : SchedState) : SchedOp → SchedState
  | .opSchedule j => { s with jobs := s.jobs ++ [j] }
  | .opJobDone _ _ => s
  | .opSweep now => { s with jobs := s.jobs.filter (fun j => dtLtB now j.when) }

/-- What happens during one iteration of the `while True` in `_cleanup_loop`:
the iteration runs to completion (with `self._corrected_now()` returning
`now`), or an `asyncio.CancelledError` is raised into it (shutdown), or some
other exception escapes the iteration body.  Exceptions of completed job
tasks are caught *inside* the iteration (lines 450-454) and do not escape,
so `raisesE` models any other failure. -/
inductive SweepStep where
  | runs (now : DateTime)
  | cancelSignal
  | raisesE (e : List Char)
deriving DecidableEq, Repr

/-- How an invocation of `_cleanup_loop` is observed to end. -/
inductive CleanupExit where
  | stillRunning
  | exitedCancelled
  | exitedRaised (e : List Char)
deriving DecidableEq, Repr

/-- Observable outcome of `_cleanup_loop` on a trace of iteration events. -/
structure CleanupOutcome where
  sweepsCompleted : Nat
  errorLog : List (List Char)
  exit : CleanupExit
  jobs : List ScheduledJob
deriving DecidableEq, Repr

/-- The `self.log.error(f"Error in cleanup loop: {e}")` message of line 467. -/
def cleanupErrMsg (e : List Char) : List Char := strL ("Error in cleanup loop: ") ++ e

/-- `_cleanup_loop` (lines 441-468) run against a trace of iteration events.
The `try` wraps the whole `while True`; a `CancelledError` is caught and the
coroutine returns (lines 463-465); any other exception is caught once,
logged, and re-raised (lines 466-468), so nothing after it runs.  An
exhausted trace leaves the loop still running. -/
def cleanup_loop (steps : List SweepStep) (jobs : List ScheduledJob) : CleanupOutcome :=
  match steps with
  | [] => ⟨0, [], .stillRunning, jobs⟩
  | .runs now :: rest =>
    let out := cleanup_loop rest (jobs.filter (fun j => dtLtB now j.when))
    { out with sweepsCompleted := out.sweepsCompleted + 1 }
  | .cancelSignal :: _ => ⟨0, [], .exitedCancelled, jobs⟩
  | .raisesE e :: _ => ⟨0, [cleanupErrMsg e], .exitedRaised e, jobs⟩

/-! ## A well-behaved paged server, for instantiating the pagination claims

A forum with exactly `N` topics: topic number `i` (0-based) has id `i + 1`
and per-index attributes given by `f`.  The server answers a request by
returning the first `limit` topics strictly after the one named by
`offset_topic` (id order = server order), which is exactly the successive
chunking the derived cursor produces. -/

/-- Per-index attributes of a canonical forum topic. -/
structure TopicAttrs where
  title : Option (List Char)
  unread_count : Int
  pinned : Bool
  closed : Bool
deriving DecidableEq, Repr

/-- Topic number `i` of the canonical forum. -/
def mkRawTopic (i : Nat) (a : TopicAttrs) : RawTopic :=
  { id := (i + 1 : Nat), title := a.title, unread_count := a.unread_count,
    pinned := a.pinned, closed := a.closed, top_message := (i + 1 : Nat) }

/-- The canonical forum's full topic list. -/
def forumTopics (N : Nat) (f : Nat → TopicAttrs) : List RawTopic :=
  (List.range N).map (fun i => mkRawTopic i (f i))

/-- The canonical forum's paged server. -/
def serverOf (N : Nat) (f : Nat → TopicAttrs) (limit : Nat) : Cursor → FetchResult :=
  fun c => { topics := ((forumTopics N f).drop c.offset_topic.toNat).take limit, messages := [] }

/-- Titled, unpinned, per-index attributes — a generic instantiation. -/
def plainAttrs : Nat → TopicAttrs := fun _ => ⟨some (strL ("t")), 0, false, false⟩

/-- The next-page cursor, derived from the last topic of a full page exactly
as the spec words it: `offset_topic` is the last topic's id, `offset_id` its
top-message id, `offset_date` the date of the message in the accompanying
message list whose id equals `offset_id` (`none` when there is no such
message, or when its date is not a datetime). -/
def nextCursor (res : FetchResult) (last : RawTopic) : Cursor :=
  { offset_date := (res.messages.find? (fun m => m.id == last.top_message)).bind (·.date),
    offset_id := last.top_message,
    offset_topic := last.id }

/-- A concrete two-page fetch function for the C5 witness: the first request
returns a full page of 2 topics whose last topic has top-message id 7, and
the accompanying message list carries a message with id 7, so the derived
`offset_date` is that message's date; the second request returns an empty
page. -/
def fetchEx : Cursor → FetchResult := fun c =>
  if c.offset_topic = 0 then
    { topics := [⟨1, some (strL ("b")), 0, false, false, 5⟩,
                 ⟨2, some (strL ("a")), 0, false, false, 7⟩],
      messages := [⟨5, none⟩, ⟨7, some ⟨2024, 1, 2, 3, 4, 5⟩⟩] }
  else { topics := [], messages := [] }

/-- A decimal digit character (`'0'..'9'`). -/
def IsDigitCh (c : Char) : Prop := 48 ≤ c.toNat ∧ c.toNat ≤ 57

/-- The character with code point `48 + n` (for `n < 10`, the digit `n`). -/
def digitChar (n : Nat) : Char := Char.ofNat (48 + n)

/-- The canonical two-digit decimal rendering of `n < 100`. -/
def twoDig (n : Nat) : List Char := [digitChar (n / 10), digitChar (n % 10)]

/-- The text `HH:MM` for hour `h` and minute `m` (two digits each). -/
def hhmmText (h m : Nat) : List Char := twoDig h ++ ':' :: twoDig m

lemma forumTopics_length (N : Nat) (f : Nat → TopicAttrs) : (forumTopics N f).length = N := by
  simp [forumTopics]

lemma forumTopics_getElem? (N : Nat) (f : Nat → TopicAttrs) (k : Nat) (h : k < N) :
    (forumTopics N f)[k]? = some (mkRawTopic k (f k)) := by
  simp [forumTopics, List.getElem?_map, List.getElem?_range h]

/-- Main pagination invariant: starting `gaftLoop` against the canonical
server at position `pos` (cursor `offset_topic = pos`) with enough fuel, it
returns the accumulator extended with every titled topic from position `pos`
on, after `(N - pos) / limit + 1` fetch round-trips. -/
theorem gaftLoop_serverOf (N : Nat) (f : Nat → TopicAttrs) (limit : Nat) (hl : 0 < limit) :
    ∀ (fuel pos : Nat) (od : Option DateTime) (oid : Int) (acc : List TopicInfo),
      pos ≤ N → (N - pos) / limit + 1 ≤ fuel →
      ∃ log,
        gaftLoop (serverOf N f limit) limit fuel ⟨od, oid, (pos : Int)⟩ acc
          = some (acc ++ ((forumTopics N f).drop pos).filterMap topicInfoOfRaw?, log)
        ∧ log.length = (N - pos) / limit + 1 := by
  intro fuel
  induction fuel with
  | zero => intro pos od oid acc hpos hfuel; exact absurd hfuel (Nat.not_succ_le_zero _)
  | succ fuel ih =>
    intro pos od oid acc hpos hfuel
    have hT : (forumTopics N f).length = N := forumTopics_length N f
    have hdroplen : ((forumTopics N f).drop pos).length = N - pos := by
      simp [List.length_drop, hT]
    have hserver : (serverOf N f limit) ⟨od, oid, (pos : Int)⟩
        = ⟨((forumTopics N f).drop pos).take limit, []⟩ := by
      simp [serverOf]
    by_cases hNp : N ≤ pos
    · -- past the end: the server returns an empty page, the loop stops
      have hdrop : (forumTopics N f).drop pos = [] := by
        apply List.drop_eq_nil_of_le; omega
      refine ⟨[⟨od, oid, (pos : Int)⟩], ?_, ?_⟩
      · simp [gaftLoop, hserver, hdrop]
      · have : N - pos = 0 := by omega
        simp [this, Nat.zero_div]
    · push_neg at hNp
      set R := N - pos with hR
      have hRpos : 0 < R := by omega
      by_cases hshort : R < limit
      · -- short page: everything left fits in one page, the loop stops
        have htake : ((forumTopics N f).drop pos).take limit = (forumTopics N f).drop pos := by
          apply List.take_of_length_le; rw [hdroplen]; omega
        obtain ⟨t0, rest, hcons⟩ : ∃ t0 rest, (forumTopics N f).drop pos = t0 :: rest := by
          cases hc : (forumTopics N f).drop pos with
          | nil => rw [hc] at hdroplen; simp at hdroplen; omega
          | cons a l => exact ⟨a, l, rfl⟩
        have hlen : (t0 :: rest).length < limit := by
          rw [← hcons, hdroplen]; omega
        refine ⟨[⟨od, oid, (pos : Int)⟩], ?_, ?_⟩
        · simp only [gaftLoop, hserver]
          rw [htake, hcons]
          simp only [if_pos hlen]
        · have : R / limit = 0 := Nat.div_eq_of_lt hshort
          simp [← hR, this]
      · -- full page: derive the next cursor and recurse
        push_neg at hshort
        have htakelen : (((forumTopics N f).drop pos).take limit).length = limit := by
          simp [List.length_take]; omega
        obtain ⟨t0, rest, hcons⟩ : ∃ t0 rest,
            ((forumTopics N f).drop pos).take limit = t0 :: rest := by
          cases hc : ((forumTopics N f).drop pos).take limit with
          | nil => rw [hc] at htakelen; simp at htakelen; omega
          | cons a l => exact ⟨a, l, rfl⟩
        have hlen : (t0 :: rest).length = limit := by rw [← hcons]; exact htakelen
        have hnotlt : ¬ (t0 :: rest).length < limit := by omega
        -- the last topic of the page
        have hlast? : (t0 :: rest).getLast? = some (mkRawTopic (pos + (limit - 1)) (f (pos + (limit - 1)))) := by
          rw [List.getLast?_eq_getElem?, hlen, ← hcons]
          rw [List.getElem?_take, if_pos (show limit - 1 < limit by omega)]
          rw [List.getElem?_drop]
          exact forumTopics_getElem? N f (pos + (limit - 1)) (by omega)
        have hlast : (t0 :: rest).getLast (List.cons_ne_nil t0 rest)
            = mkRawTopic (pos + (limit - 1)) (f (pos + (limit - 1))) := by
          have := List.getLast?_eq_getLast (t0 :: rest) (List.cons_ne_nil t0 rest)
          rw [this] at hlast?
          exact Option.some_injective _ hlast?
        have hid : (mkRawTopic (pos + (limit - 1)) (f (pos + (limit - 1)))).id
            = ((pos + limit : Nat) : Int) := by
          simp [mkRawTopic]; omega
        have htm : (mkRawTopic (pos + (limit - 1)) (f (pos + (limit - 1)))).top_message
            = ((pos + limit : Nat) : Int) := by
          simp [mkRawTopic]; omega
        -- recursion via the induction hypothesis
        obtain ⟨log, hrec, hloglen⟩ :=
          ih (pos + limit) none ((pos + limit : Nat) : Int)
            (acc ++ (t0 :: rest).filterMap topicInfoOfRaw?)
            (by omega)
            (by
              have hstep : R / limit = (R - limit) / limit + 1 :=
                Nat.div_eq_sub_div hl hshort
              have : N - (pos + limit) = R - limit := by omega
              rw [this]
              omega)
        refine ⟨⟨od, oid, (pos : Int)⟩ :: log, ?_, ?_⟩
        · simp only [gaftLoop, hserver, hcons, hnotlt, if_neg, not_false_iff, hlast,
            List.find?_nil, Option.none_bind, hid, htm]
          rw [hrec]
          have hdd : ((forumTopics N f).drop pos).drop limit
              = (forumTopics N f).drop (pos + limit) := by
            rw [List.drop_drop]
          have hsplit : (forumTopics N f).drop pos
              = (t0 :: rest) ++ (forumTopics N f).drop (pos + limit) := by
            conv_lhs => rw [← List.take_append_drop limit ((forumTopics N f).drop pos)]
            rw [hcons, hdd]
          simp [hsplit, List.filterMap_append, List.append_assoc]
          rw [← List.filterMap_append]
          simp [List.cons_append]
        · have hstep : R / limit = (R - limit) / limit + 1 :=
            Nat.div_eq_sub_div hl hshort
          have hNlim : N - (pos + limit) = R - limit := by omega
          simp only [List.length_cons, hloglen, hNlim]
          omega

/-! ### Totality and transitivity of the sort key, and sort facts -/

lemma lexLe_total : ∀ a b : List Char, lexLe a b = true ∨ lexLe b a = true := by
  intro a
  induction a with
  | nil => intro b; left; rfl
  | cons x xs ih =>
    intro b
    cases b with
    | nil => right; rfl
    | cons y ys =>
      by_cases h1 : x.toNat < y.toNat
      · left; simp [lexLe, h1]
      · by_cases h2 : y.toNat < x.toNat
        · right; simp [lexLe, h2]
        · rcases ih ys with h | h
          · left; simp [lexLe, h1, h2, h]
          · right; simp [lexLe, h1, h2, h]

lemma lexLe_trans : ∀ a b c : List Char,
    lexLe a b = true → lexLe b c = true → lexLe a c = true := by
  intro a
  induction a with
  | nil => intro b c _ _; rfl
  | cons x xs ih =>
    intro b c hab hbc
    cases b with
    | nil => simp [lexLe] at hab
    | cons y ys =>
      cases c with
      | nil => simp [lexLe] at hbc
      | cons z zs =>
        simp only [lexLe] at hab hbc ⊢
        split_ifs at hab hbc ⊢ <;>
          first
            | rfl
            | omega
            | exact ih ys zs hab hbc

lemma topicKeyLe_total (a b : TopicInfo) : topicKeyLe a b = true ∨ topicKeyLe b a = true := by
  unfold topicKeyLe
  by_cases h : pinRank a = pinRank b
  · simp [h]
    exact lexLe_total _ _
  · have h' : pinRank b ≠ pinRank a := fun hh => h hh.symm
    simp [h, h']

lemma topicKeyLe_trans (a b c : TopicInfo) (h1 : topicKeyLe a b = true)
    (h2 : topicKeyLe b c = true) : topicKeyLe a c = true := by
  unfold topicKeyLe at h1 h2 ⊢
  by_cases hab : pinRank a = pinRank b <;> by_cases hbc : pinRank b = pinRank c
  · have : pinRank a = pinRank c := hab.trans hbc
    simp [hab, hbc, this] at h1 h2 ⊢
    exact lexLe_trans _ _ _ h1 h2
  · have : pinRank a ≠ pinRank c := fun hh => hbc (hab.symm.trans hh)
    simp [hab, hbc, this] at h1 h2 ⊢
    omega
  · have : pinRank a ≠ pinRank c := fun hh => hab (hh.trans hbc.symm)
    simp [hab, hbc, this] at h1 h2 ⊢
    omega
  · simp [hab, hbc] at h1 h2
    have : pinRank a ≠ pinRank c := by omega
    simp [this]
    omega

instance : IsTotal TopicInfo TopicLe :=
  ⟨fun a b => by unfold TopicLe; exact topicKeyLe_total a b⟩

instance : IsTrans TopicInfo TopicLe :=
  ⟨fun a b c h1 h2 => topicKeyLe_trans a b c h1 h2⟩

lemma sortTopics_perm (l : List TopicInfo) : (sortTopics l).Perm l :=
  List.perm_insertionSort TopicLe l

lemma sortTopics_sorted (l : List TopicInfo) : List.Sorted TopicLe (sortTopics l) :=
  List.sorted_insertionSort TopicLe l

/-- Every raw topic either yields one entry or is counted as title-less. -/
lemma length_filterMap_add_count_untitled (l : List RawTopic) :
    (l.filterMap topicInfoOfRaw?).length
      + l.countP (fun t => (topicInfoOfRaw? t).isNone) = l.length := by
  induction l with
  | nil => simp
  | cons t ts ih =>
    cases h : topicInfoOfRaw? t <;>
      simp [List.filterMap_cons, h, List.countP_cons, ih] <;> omega

/-- `get_all_forum_topics` against the canonical `N`-topic server: the result
is the sorted list of all titled topics, after `N / limit + 1` round-trips. -/
theorem gaft_serverOf (N : Nat) (f : Nat → TopicAttrs) (limit : Nat) (hl : 0 < limit) :
    ∃ log,
      get_all_forum_topics (serverOf N f limit) limit (N + 1)
        = some (sortTopics ((forumTopics N f).filterMap topicInfoOfRaw?), log)
      ∧ log.length = N / limit + 1 := by
  obtain ⟨log, h1, h2⟩ := gaftLoop_serverOf N f limit hl (N + 1) 0 none 0 []
    (Nat.zero_le N)
    (by simp only [Nat.sub_zero]; have := Nat.div_le_self N limit; omega)
  simp only [Nat.cast_zero, List.drop_zero, List.nil_append, Nat.sub_zero] at h1 h2
  refine ⟨log, ?_, h2⟩
  unfold get_all_forum_topics
  rw [h1]
  rfl

/-! ### Claims C1, C5, C7 -/

/-- Claim C1, counterexample: a forum with exactly `N = 2` topics fetched with
page size 2 (an exact multiple) costs 2 round-trips, not `N / pageSize = 1`:
the full last page forces one trailing empty-page call. -/
theorem claim_c1_counterexample :
    (get_all_forum_topics (serverOf 2 plainAttrs 2) 2 3).map (fun p => p.2.length) = some 2
      ∧ (2 : Nat) / 2 = 1 ∧ (2 : Nat) ≠ 1 :=
  ⟨by decide, by decide, by decide⟩

/-- Claim C1 as amended: for a forum with exactly `N` topics and page size
`limit > 0`, the number of page-fetch round-trips is `ceil (N / limit)`
(that is `N / limit + 1`) when `N` is not a multiple of `limit`, and
`N / limit + 1` — one more than the claim's `N / limit` — when `N` is an
exact multiple: the short-page rule cannot fire on a full last page, so a
trailing empty-page call is made. -/
theorem claim_c1_roundtrips (N limit : Nat) (f : Nat → TopicAttrs) (hl : 0 < limit) :
    (get_all_forum_topics (serverOf N f limit) limit (N + 1)).map (fun p => p.2.length)
      = some (if N % limit = 0 then N / limit + 1 else (N + limit - 1) / limit) := by
  obtain ⟨log, h1, h2⟩ := gaft_serverOf N f limit hl
  rw [h1]
  simp only [Option.map_some']
  congr 1
  rw [h2]
  by_cases hmod : N % limit = 0
  · rw [if_pos hmod]
  · rw [if_neg hmod]
    have hdm := Nat.div_add_mod N limit
    have hrlt : N % limit < limit := Nat.mod_lt N hl
    have hrpos : 0 < N % limit := Nat.pos_of_ne_zero hmod
    have hexp : limit * (N / limit + 1) = limit * (N / limit) + limit := by ring
    have harr : N + limit - 1 = (N % limit - 1) + limit * (N / limit + 1) := by omega
    rw [harr, Nat.add_mul_div_left _ _ hl,
      Nat.div_eq_of_lt (show N % limit - 1 < limit by omega)]
    omega

/-- Witness for `claim_c1_roundtrips`: `N = 3`, `limit = 2` (not a multiple)
gives `ceil (3 / 2) = 2` round-trips. -/
theorem claim_c1_roundtrips_witness :
    (get_all_forum_topics (serverOf 3 plainAttrs 2) 2 4).map (fun p => p.2.length)
      = some (if 3 % 2 = 0 then 3 / 2 + 1 else (3 + 2 - 1) / 2) :=
  claim_c1_roundtrips 3 2 plainAttrs (by decide)

/-- Claim C7: the list returned by `get_all_forum_topics` has one entry per
fetched topic with a (non-empty) title — title-less topics are skipped — and
is sorted by the key (not pinned, lower-cased title): pinned topics first,
then case-insensitive ascending titles within each group. -/
theorem claim_c7_sorted_titled (N limit : Nat) (f : Nat → TopicAttrs) (hl : 0 < limit) :
    ∃ res log,
      get_all_forum_topics (serverOf N f limit) limit (N + 1) = some (res, log)
      ∧ res.Perm ((forumTopics N f).filterMap topicInfoOfRaw?)
      ∧ res.length
          + (forumTopics N f).countP (fun t => (topicInfoOfRaw? t).isNone) = N
      ∧ List.Sorted TopicLe res := by
  obtain ⟨log, h1, _⟩ := gaft_serverOf N f limit hl
  refine ⟨sortTopics ((forumTopics N f).filterMap topicInfoOfRaw?), log, h1, ?_, ?_, ?_⟩
  · exact sortTopics_perm _
  · rw [List.Perm.length_eq (sortTopics_perm _)]
    rw [length_filterMap_add_count_untitled]
    exact forumTopics_length N f
  · exact sortTopics_sorted _

/-- Witness for `claim_c7_sorted_titled` at `N = 3`, `limit = 2`. -/
theorem claim_c7_sorted_titled_witness :
    ∃ res log,
      get_all_forum_topics (serverOf 3 plainAttrs 2) 2 4 = some (res, log)
      ∧ res.Perm ((forumTopics 3 plainAttrs).filterMap topicInfoOfRaw?)
      ∧ res.length
          + (forumTopics 3 plainAttrs).countP (fun t => (topicInfoOfRaw? t).isNone) = 3
      ∧ List.Sorted TopicLe res :=
  claim_c7_sorted_titled 3 2 plainAttrs (by decide)

/-- Claim C5: after a full page (length exactly `limit`, nonempty) the loop
recurses with the cursor derived from the page's last topic (`nextCursor`),
and after a short page (fewer than `limit` topics) it stops — one single
round-trip for that page, no cursor recomputation. -/
theorem claim_c5_cursor_step :
    (∀ (fetch : Cursor → FetchResult) (limit fuel : Nat) (cur : Cursor)
        (acc : List TopicInfo) (t0 : RawTopic) (rest : List RawTopic),
      (fetch cur).topics = t0 :: rest →
      ¬ (t0 :: rest).length < limit →
      gaftLoop fetch limit (fuel + 1) cur acc
        = match gaftLoop fetch limit fuel
              (nextCursor (fetch cur) ((t0 :: rest).getLast (List.cons_ne_nil t0 rest)))
              (acc ++ (t0 :: rest).filterMap topicInfoOfRaw?) with
          | none => none
          | some (ts, log) => some (ts, cur :: log))
    ∧ (∀ (fetch : Cursor → FetchResult) (limit fuel : Nat) (cur : Cursor)
        (acc : List TopicInfo) (t0 : RawTopic) (rest : List RawTopic),
      (fetch cur).topics = t0 :: rest →
      (t0 :: rest).length < limit →
      gaftLoop fetch limit (fuel + 1) cur acc
        = some (acc ++ (t0 :: rest).filterMap topicInfoOfRaw?, [cur])) := by
  constructor
  · intro fetch limit fuel cur acc t0 rest htop hfull
    simp only [gaftLoop, htop, if_neg hfull, nextCursor]
  · intro fetch limit fuel cur acc t0 rest htop hshort
    simp only [gaftLoop, htop, if_pos hshort]

/-- Witness for `claim_c5_cursor_step`: on `fetchEx` the first (full) page
leads to the derived cursor `⟨some date, 7, 2⟩` and the loop then stops on
the empty page. -/
theorem claim_c5_cursor_step_witness :
    gaftLoop fetchEx 2 2 ⟨none, 0, 0⟩ []
      = some ([⟨1, strL ("b"), 0, false, false⟩, ⟨2, strL ("a"), 0, false, false⟩],
          [⟨none, 0, 0⟩, ⟨some ⟨2024, 1, 2, 3, 4, 5⟩, 7, 2⟩]) := by
  rw [claim_c5_cursor_step.1 fetchEx 2 1 ⟨none, 0, 0⟩ []
    (⟨1, some (strL ("b")), 0, false, false, 5⟩)
    ([⟨2, some (strL ("a")), 0, false, false, 7⟩]) (by decide) (by decide)]
  decide

/-! ### Character-level lemmas for the parsing claims -/

lemma char_ne_of_toNat {c d : Char} (h : c.toNat ≠ d.toNat) : ¬ c = d :=
  fun he => h (by rw [he])

lemma digitChar_toNat {k : Nat} (hk : k < 10) : (digitChar k).toNat = 48 + k := by
  have : ∀ k < 10, (digitChar k).toNat = 48 + k := by decide
  exact this k hk

lemma isPySpace_eq_false {c : Char} (h1 : 48 ≤ c.toNat) (h2 : c.toNat ≤ 57) :
    isPySpace c = false := by
  have e : ∀ d : Char, c.toNat ≠ d.toNat → (c = d) = False :=
    fun d hd => eq_false (char_ne_of_toNat hd)
  simp [isPySpace,
    e ' ' (by have : (' ' : Char).toNat = 32 := rfl; omega),
    e '\t' (by have : ('\t' : Char).toNat = 9 := rfl; omega),
    e '\n' (by have : ('\n' : Char).toNat = 10 := rfl; omega),
    e '\r' (by have : ('\r' : Char).toNat = 13 := rfl; omega),
    e '\x0b' (by have : ('\x0b' : Char).toNat = 11 := rfl; omega),
    e '\x0c' (by have : ('\x0c' : Char).toNat = 12 := rfl; omega)]

lemma dropWhile_eq_self_of (p : Char → Bool) (l : List Char)
    (h : ∀ c ∈ l, p c = false) : l.dropWhile p = l := by
  cases l with
  | nil => rfl
  | cons c cs => simp [List.dropWhile_cons, h c (List.mem_cons_self c cs)]

lemma pyStrip_eq_self (l : List Char) (h : ∀ c ∈ l, isPySpace c = false) :
    pyStrip l = l := by
  unfold pyStrip
  rw [dropWhile_eq_self_of _ _ h]
  rw [dropWhile_eq_self_of _ _ (by intro c hc; exact h c (by simpa using hc))]
  exact List.reverse_reverse l

lemma splitAux_no_sep (sep : Char) : ∀ (l acc : List Char),
    (∀ c ∈ l, (c = sep) = False) → splitAux sep l acc = [acc.reverse ++ l] := by
  intro l
  induction l with
  | nil => intro acc _; simp [splitAux]
  | cons c cs ih =>
    intro acc h
    have hc := h c (List.mem_cons_self c cs)
    simp only [splitAux, hc, if_false]
    rw [ih (c :: acc) (fun d hd => h d (List.mem_cons_of_mem c hd))]
    simp

lemma splitOnChar_hhmm (a b c d : Char) (ha : a.toNat ≠ 58) (hb : b.toNat ≠ 58)
    (hc : c.toNat ≠ 58) (hd : d.toNat ≠ 58) :
    splitOnChar ':' [a, b, ':', c, d] = [[a, b], [c, d]] := by
  have e : ∀ x : Char, x.toNat ≠ 58 → (x = ':') = False :=
    fun x hx => eq_false (char_ne_of_toNat (by have : (':' : Char).toNat = 58 := rfl; omega))
  simp [splitOnChar, splitAux, e a ha, e b hb, e c hc, e d hd]

lemma pyInt?_two_digits (a b : Char) (ha : IsDigitCh a) (hb : IsDigitCh b) :
    pyInt? [a, b] = some (((a.toNat - 48) * 10 + (b.toNat - 48) : Nat) : Int) := by
  obtain ⟨ha1, ha2⟩ := ha
  obtain ⟨hb1, hb2⟩ := hb
  have hstrip : pyStrip [a, b] = [a, b] := by
    apply pyStrip_eq_self
    intro c hc
    rcases (by simpa using hc : c = a ∨ c = b) with rfl | rfl
    exacts [isPySpace_eq_false ha1 ha2, isPySpace_eq_false hb1 hb2]
  have hA : ¬ a.toNat = 43 := by omega
  have hB : ¬ a.toNat = 45 := by omega
  unfold pyInt?
  rw [hstrip]
  simp only [hA, hB, if_false]
  unfold digitsToNat?
  simp [digit?, ha1, ha2, hb1, hb2]

lemma colonParse_hhmm (a b c d : Char) (ha : IsDigitCh a) (hb : IsDigitCh b)
    (hc : IsDigitCh c) (hd : IsDigitCh d) :
    colonParse [a, b, ':', c, d]
      = .hm (((a.toNat - 48) * 10 + (b.toNat - 48) : Nat) : Int)
          (((c.toNat - 48) * 10 + (d.toNat - 48) : Nat) : Int) := by
  obtain ⟨ha1, ha2⟩ := ha
  obtain ⟨hb1, hb2⟩ := hb
  obtain ⟨hc1, hc2⟩ := hc
  obtain ⟨hd1, hd2⟩ := hd
  unfold colonParse
  rw [splitOnChar_hhmm a b c d (by omega) (by omega) (by omega) (by omega)]
  simp [pyInt?_two_digits a b ⟨ha1, ha2⟩ ⟨hb1, hb2⟩,
    pyInt?_two_digits c d ⟨hc1, hc2⟩ ⟨hd1, hd2⟩]

lemma pDigit_digit {c : Char} (h : IsDigitCh c) (l : List Char) :
    pDigit (c :: l) = some (c.toNat - 48, l) := by
  simp [pDigit, h.1, h.2]

lemma pDigit_colon (l : List Char) : pDigit (':' :: l) = none := rfl

lemma pLit_ne (c x : Char) (h : ¬ x = c) (l : List Char) : pLit c (x :: l) = none := by
  simp [pLit, h]

lemma pYear4_ddcolon (c1 c2 : Char) (h1 : IsDigitCh c1) (h2 : IsDigitCh c2)
    (rest : List Char) : pYear4 (c1 :: c2 :: ':' :: rest) = none := by
  unfold pYear4
  simp [pDigit_digit h1, pDigit_digit h2, pDigit_colon]

lemma strptimeYmd_ddcolon (c1 c2 : Char) (h1 : IsDigitCh c1) (h2 : IsDigitCh c2)
    (rest : List Char) : strptimeYmdHM (c1 :: c2 :: ':' :: rest) = none := by
  unfold strptimeYmdHM
  rw [pYear4_ddcolon c1 c2 h1 h2 rest]
  rfl

lemma strptimeDmy_ddcolon (c1 c2 : Char) (h1 : IsDigitCh c1) (h2 : IsDigitCh c2)
    (rest : List Char) : strptimeDmyHM (c1 :: c2 :: ':' :: rest) = none := by
  obtain ⟨a1, a2⟩ := h1
  obtain ⟨b1, b2⟩ := h2
  have hdotc2 : ∀ l, pLit '.' (c2 :: l) = none :=
    fun l => pLit_ne '.' c2
      (char_ne_of_toNat (by have : ('.' : Char).toNat = 46 := rfl; omega)) l
  have hdotcolon : ∀ l, pLit '.' (':' :: l) = none :=
    fun l => pLit_ne '.' ':' (by decide) l
  have viaHead : ∀ (v : Nat) (x : Char) (l : List Char),
      pDay (c1 :: c2 :: ':' :: rest) = some (v, x :: l) →
      pLit '.' (x :: l) = none → strptimeDmyHM (c1 :: c2 :: ':' :: rest) = none := by
    intro v x l hp hx
    unfold strptimeDmyHM
    rw [hp]
    simp [hx]
  have viaNone : pDay (c1 :: c2 :: ':' :: rest) = none →
      strptimeDmyHM (c1 :: c2 :: ':' :: rest) = none := by
    intro hp
    unfold strptimeDmyHM
    rw [hp]
    rfl
  by_cases e51 : c1.toNat = 51
  · by_cases e01 : 48 ≤ c2.toNat ∧ c2.toNat ≤ 49
    · exact viaHead (30 + (c2.toNat - 48)) ':' rest
        (by simp [pDay, e51, e01]) (hdotcolon rest)
    · exact viaHead 3 c2 (':' :: rest)
        (by simp [pDay, e51, e01]) (hdotc2 (':' :: rest))
  · by_cases e12 : 49 ≤ c1.toNat ∧ c1.toNat ≤ 50
    · exact viaHead ((c1.toNat - 48) * 10 + (c2.toNat - 48)) ':' rest
        (by simp [pDay, e51, e12, b1, b2]) (hdotcolon rest)
    · by_cases e48 : c1.toNat = 48
      · by_cases e19 : 49 ≤ c2.toNat ∧ c2.toNat ≤ 57
        · exact viaHead (c2.toNat - 48) ':' rest
            (by simp [pDay, e51, e12, e48, e19]) (hdotcolon rest)
        · exact viaNone (by simp [pDay, e51, e12, e48, e19])
      · have e47 : 52 ≤ c1.toNat := by omega
        exact viaHead (c1.toNat - 48) c2 (':' :: rest)
            (by simp [pDay, e51, e12, e48, e47, a2]) (hdotc2 (':' :: rest))

lemma mkDatetime?_today (td : Date) (h : ValidDate td) (hh mm ss : Nat) :
    mkDatetime? (td.year : Int) (td.month : Int) (td.day : Int) (hh : Int) (mm : Int) (ss : Int)
      = if hh ≤ 23 ∧ mm ≤ 59 ∧ ss ≤ 59
        then some ⟨td.year, td.month, td.day, hh, mm, ss⟩ else none := by
  obtain ⟨hy1, hy2, hm1, hm2, hd1, hd2⟩ := h
  unfold mkDatetime?
  by_cases hc : hh ≤ 23 ∧ mm ≤ 59 ∧ ss ≤ 59
  · rw [if_pos, if_pos hc]
    · simp
    · simp only [Int.toNat_natCast]
      omega
  · rw [if_neg, if_neg hc]
    intro hbig
    apply hc
    omega

lemma mkDatetime?_today_hm (td : Date) (hv : ValidDate td) (hh mm : Nat) :
    mkDatetime? (td.year : Int) (td.month : Int) (td.day : Int) (hh : Int) (mm : Int) 0
      = if hh ≤ 23 ∧ mm ≤ 59 then some ⟨td.year, td.month, td.day, hh, mm, 0⟩ else none := by
  have h0 := mkDatetime?_today td hv hh mm 0
  by_cases hc : hh ≤ 23 ∧ mm ≤ 59
  · rw [if_pos hc]
    rw [if_pos ⟨hc.1, hc.2, by omega⟩] at h0
    exact h0
  · rw [if_neg hc]
    rw [if_neg (fun hcon => hc ⟨hcon.1, hcon.2.1⟩)] at h0
    exact h0

/-- Claim C6: for every hour and minute written as two digits, `parse_datetime`
on `"HH:MM"` returns today's date at that hour and minute with seconds 0 when
`HH < 24` and `MM < 60`, and `none` for numeric components outside those
ranges (the out-of-range values are rejected by the `datetime` constructor
and both date formats fail on a colon string, so the function returns `none`
rather than raising). -/
theorem claim_c6_hhmm (today : Date) (hvd : ValidDate today) (h m : Nat)
    (hh100 : h < 100) (hm100 : m < 100) :
    parse_datetime today (hhmmText h m)
      = if h < 24 ∧ m < 60
        then some ⟨today.year, today.month, today.day, h, m, 0⟩ else none := by
  have d1 : IsDigitCh (digitChar (h / 10)) := by
    unfold IsDigitCh; rw [digitChar_toNat (by omega)]; omega
  have d2 : IsDigitCh (digitChar (h % 10)) := by
    unfold IsDigitCh; rw [digitChar_toNat (by omega)]; omega
  have d3 : IsDigitCh (digitChar (m / 10)) := by
    unfold IsDigitCh; rw [digitChar_toNat (by omega)]; omega
  have d4 : IsDigitCh (digitChar (m % 10)) := by
    unfold IsDigitCh; rw [digitChar_toNat (by omega)]; omega
  have hlist : hhmmText h m
      = [digitChar (h / 10), digitChar (h % 10), ':', digitChar (m / 10),
          digitChar (m % 10)] := rfl
  have hstrip : pyStrip (hhmmText h m) = hhmmText h m := by
    apply pyStrip_eq_self
    intro c hcmem
    rw [hlist] at hcmem
    rcases (by simpa using hcmem :
        c = digitChar (h / 10) ∨ c = digitChar (h % 10) ∨ c = ':'
          ∨ c = digitChar (m / 10) ∨ c = digitChar (m % 10)) with rfl | rfl | rfl | rfl | rfl
    · exact isPySpace_eq_false d1.1 d1.2
    · exact isPySpace_eq_false d2.1 d2.2
    · rfl
    · exact isPySpace_eq_false d3.1 d3.2
    · exact isPySpace_eq_false d4.1 d4.2
  have hH : ((digitChar (h / 10)).toNat - 48) * 10 + ((digitChar (h % 10)).toNat - 48)
      = h := by
    rw [digitChar_toNat (by omega), digitChar_toNat (by omega)]; omega
  have hM : ((digitChar (m / 10)).toNat - 48) * 10 + ((digitChar (m % 10)).toNat - 48)
      = m := by
    rw [digitChar_toNat (by omega), digitChar_toNat (by omega)]; omega
  simp only [parse_datetime]
  rw [hstrip, hlist, colonParse_hhmm _ _ _ _ d1 d2 d3 d4]
  dsimp only
  simp only [hH, hM]
  by_cases hin : h < 24 ∧ m < 60
  · rw [mkDatetime?_today_hm today hvd h m,
      if_pos (show h ≤ 23 ∧ m ≤ 59 by omega), if_pos hin]
  · rw [mkDatetime?_today_hm today hvd h m,
      if_neg (show ¬ (h ≤ 23 ∧ m ≤ 59) by omega), if_neg hin]
    simp only [strptimeYmd_ddcolon _ _ d1 d2, strptimeDmy_ddcolon _ _ d1 d2]

/-- Witness for `claim_c6_hhmm`: `"09:00"` parses to today 09:00:00, while
`"24:00"` and `"12:60"` yield no result. -/
theorem claim_c6_hhmm_witness :
    parse_datetime ⟨2024, 1, 1⟩ (hhmmText 9 0)
        = (if 9 < 24 ∧ 0 < 60 then some ⟨2024, 1, 1, 9, 0, 0⟩ else none)
    ∧ parse_datetime ⟨2024, 1, 1⟩ (hhmmText 24 0)
        = (if 24 < 24 ∧ 0 < 60 then some ⟨2024, 1, 1, 24, 0, 0⟩ else none)
    ∧ parse_datetime ⟨2024, 1, 1⟩ (hhmmText 12 60)
        = (if 12 < 24 ∧ 60 < 60 then some ⟨2024, 1, 1, 12, 60, 0⟩ else none) :=
  ⟨claim_c6_hhmm ⟨2024, 1, 1⟩ (by decide) 9 0 (by decide) (by decide),
   claim_c6_hhmm ⟨2024, 1, 1⟩ (by decide) 24 0 (by decide) (by decide),
   claim_c6_hhmm ⟨2024, 1, 1⟩ (by decide) 12 60 (by decide) (by decide)⟩

/-- Claim C9: the ISO format and the dotted format denote the identical
absolute time: both `"2030-01-15 09:30"` and `"15.01.2030 09:30"` parse to
2030-01-15 09:30:00, whatever today's date is. -/
theorem claim_c9_formats_agree (today : Date) :
    parse_datetime today (strL ("2030-01-15 09:30")) = some ⟨2030, 1, 15, 9, 30, 0⟩
    ∧ parse_datetime today (strL ("15.01.2030 09:30")) = some ⟨2030, 1, 15, 9, 30, 0⟩ :=
  ⟨rfl, rfl⟩

/-! ### Linearity of the datetime comparison, and claim C3 -/

lemma then_gt_iff_swap (x y : Nat) (r r' : Ordering)
    (h : r = Ordering.gt ↔ r' = Ordering.lt) :
    ((compare x y).then r = Ordering.gt ↔ (compare y x).then r' = Ordering.lt) := by
  rcases Nat.lt_trichotomy x y with hlt | heq | hgt
  · have c1 : compare x y = Ordering.lt := by rw [Nat.compare_eq_lt]; exact hlt
    have c2 : compare y x = Ordering.gt := by rw [Nat.compare_eq_gt]; exact hlt
    simp [c1, c2, Ordering.then]
  · subst heq
    have c : compare x x = Ordering.eq := by rw [Nat.compare_eq_eq]
    simp [c, Ordering.then, h]
  · have c1 : compare x y = Ordering.gt := by rw [Nat.compare_eq_gt]; exact hgt
    have c2 : compare y x = Ordering.lt := by rw [Nat.compare_eq_lt]; exact hgt
    simp [c1, c2, Ordering.then]

lemma dtCompare_gt_iff_lt (a b : DateTime) :
    dtCompare a b = Ordering.gt ↔ dtCompare b a = Ordering.lt := by
  unfold dtCompare
  apply then_gt_iff_swap
  apply then_gt_iff_swap
  apply then_gt_iff_swap
  apply then_gt_iff_swap
  apply then_gt_iff_swap
  constructor
  · intro hgt
    rw [Nat.compare_eq_lt]
    rw [Nat.compare_eq_gt] at hgt
    exact hgt
  · intro hlt
    rw [Nat.compare_eq_gt]
    rw [Nat.compare_eq_lt] at hlt
    exact hlt

/-- Python's `a <= b` on datetimes is the negation of `b < a`. -/
lemma dtLeB_not_dtLtB (a b : DateTime) : dtLeB a b = !dtLtB b a := by
  unfold dtLeB dtLtB
  by_cases hgt : dtCompare a b = Ordering.gt
  · simp [hgt, (dtCompare_gt_iff_lt a b).mp hgt]
  · have h2 : ¬ dtCompare b a = Ordering.lt :=
      fun hh => hgt ((dtCompare_gt_iff_lt a b).mpr hh)
    simp [hgt, h2]

/-- Claim C3: when the raw time text parses, the scheduled time is the parsed
time advanced by exactly one calendar day if the raw text is time-only
(contains a colon, no space, trimmed length at most 8) and the parsed time is
not strictly after corrected-now; otherwise the parsed time is used
unchanged.  Includes the spec's two examples under corrected-now
2024-01-01 10:00:00. -/
theorem claim_c3_rollover :
    (∀ (now : DateTime) (today : Date) (ws txt : List Char) (w : DateTime),
      pyStrip txt ≠ [] →
      parse_datetime today ws = some w →
      schedule_message_from_ui now today ws txt
        = some (if (ws.contains ':' = true ∧ ws.contains ' ' = false
                      ∧ (pyStrip ws).length ≤ 8)
                  ∧ dtLtB now w = false
                then addOneDay w else w))
    ∧ schedule_message_from_ui ⟨2024, 1, 1, 10, 0, 0⟩ ⟨2024, 1, 1⟩
        (strL ("09:00")) (strL ("hi")) = some ⟨2024, 1, 2, 9, 0, 0⟩
    ∧ schedule_message_from_ui ⟨2024, 1, 1, 10, 0, 0⟩ ⟨2024, 1, 1⟩
        (strL ("11:00")) (strL ("hi")) = some ⟨2024, 1, 1, 11, 0, 0⟩ := by
  refine ⟨?_, by decide, by decide⟩
  intro now today ws txt w htxt hp
  unfold schedule_message_from_ui
  rw [if_neg htxt, hp]
  dsimp only
  rw [dtLeB_not_dtLtB w now]
  by_cases hP : (ws.contains ':' = true ∧ ws.contains ' ' = false
      ∧ (pyStrip ws).length ≤ 8) ∧ dtLtB now w = false
  · have hb : (ws.contains ':' && !ws.contains ' '
        && decide ((pyStrip ws).length ≤ 8) && !dtLtB now w) = true := by
      obtain ⟨⟨h1, h2, h3⟩, h4⟩ := hP
      simp only [Bool.and_eq_true, Bool.not_eq_true', decide_eq_true_eq]
      exact ⟨⟨⟨h1, h2⟩, h3⟩, h4⟩
    rw [if_pos hb, if_pos hP]
  · have hb : ¬ (ws.contains ':' && !ws.contains ' '
        && decide ((pyStrip ws).length ≤ 8) && !dtLtB now w) = true := by
      intro hcontra
      apply hP
      simp only [Bool.and_eq_true, Bool.not_eq_true', decide_eq_true_eq] at hcontra
      exact ⟨⟨hcontra.1.1.1, hcontra.1.1.2, hcontra.1.2⟩, hcontra.2⟩
    rw [if_neg hb, if_neg hP]

/-! ### Claims C2, C4, C8, C10 -/

/-- Claim C2, counterexample: with an exception in the first sweep iteration
and another iteration behind it, the loop completes zero further sweeps and
exits by re-raising — it does not continue, and it terminated without being
cancelled. -/
theorem claim_c2_counterexample :
    (cleanup_loop [SweepStep.raisesE (strL ("boom")),
        SweepStep.runs ⟨2024, 1, 1, 0, 0, 0⟩] []).sweepsCompleted = 0
    ∧ (cleanup_loop [SweepStep.raisesE (strL ("boom")),
        SweepStep.runs ⟨2024, 1, 1, 0, 0, 0⟩] []).exit
        = CleanupExit.exitedRaised (strL ("boom"))
    ∧ (cleanup_loop [SweepStep.raisesE (strL ("boom")),
        SweepStep.runs ⟨2024, 1, 1, 0, 0, 0⟩] []).errorLog
        = [cleanupErrMsg (strL ("boom"))] :=
  ⟨rfl, rfl, rfl⟩

/-- Claim C2 as amended: an unexpected exception inside one iteration of the
cleanup sweep is logged once and then re-raised, terminating the sweep loop
(no later iteration runs); a cancellation at shutdown makes the loop return
quietly.  The claim's "the loop continues to run subsequent sweeps" does not
hold: the `try` of `_cleanup_loop` wraps the whole `while True`, and the
`except Exception` handler ends with `raise`. -/
theorem claim_c2_raise_terminates (pre : List SweepStep) (e : List Char)
    (rest : List SweepStep) (jobs : List ScheduledJob)
    (hpre : ∀ s ∈ pre, ∃ now, s = SweepStep.runs now) :
    (cleanup_loop (pre ++ SweepStep.raisesE e :: rest) jobs).sweepsCompleted = pre.length
    ∧ (cleanup_loop (pre ++ SweepStep.raisesE e :: rest) jobs).errorLog = [cleanupErrMsg e]
    ∧ (cleanup_loop (pre ++ SweepStep.raisesE e :: rest) jobs).exit
        = CleanupExit.exitedRaised e := by
  induction pre generalizing jobs with
  | nil => exact ⟨rfl, rfl, rfl⟩
  | cons s pre ih =>
    obtain ⟨now, rfl⟩ := hpre s (List.mem_cons_self s pre)
    have hrec := ih (jobs.filter (fun j => dtLtB now j.when))
      (fun t ht => hpre t (List.mem_cons_of_mem _ ht))
    simp [cleanup_loop, hrec.1, hrec.2.1, hrec.2.2]

/-- Witness for `claim_c2_raise_terminates`: one successful sweep, then an
exception; the trailing iteration never runs. -/
theorem claim_c2_raise_terminates_witness :
    (cleanup_loop [SweepStep.runs ⟨2024, 1, 1, 0, 0, 0⟩, SweepStep.raisesE (strL ("x")),
        SweepStep.runs ⟨2024, 1, 2, 0, 0, 0⟩] []).sweepsCompleted = 1
    ∧ (cleanup_loop [SweepStep.runs ⟨2024, 1, 1, 0, 0, 0⟩, SweepStep.raisesE (strL ("x")),
        SweepStep.runs ⟨2024, 1, 2, 0, 0, 0⟩] []).errorLog = [cleanupErrMsg (strL ("x"))]
    ∧ (cleanup_loop [SweepStep.runs ⟨2024, 1, 1, 0, 0, 0⟩, SweepStep.raisesE (strL ("x")),
        SweepStep.runs ⟨2024, 1, 2, 0, 0, 0⟩] []).exit
        = CleanupExit.exitedRaised (strL ("x")) :=
  claim_c2_raise_terminates [SweepStep.runs ⟨2024, 1, 1, 0, 0, 0⟩] (strL ("x"))
    [SweepStep.runs ⟨2024, 1, 2, 0, 0, 0⟩] []
    (by intro s hs; simp at hs; exact ⟨_, hs⟩)

/-- Claim C4, counterexample: a target whose sub-conversation id is present
and equal to 0 — which is distinct from 1 — is routed as a plain send, not a
reply-style send: Python's `if target.topic_id and target.topic_id != 1`
treats the integer 0 as falsy. -/
theorem claim_c4_counterexample :
    (SendTarget.mk ⟨5, strL ("g"), strL ("group"), true⟩ (some 0)
        (some (strL ("T")))).topic_id = some 0
    ∧ (0 : Int) ≠ 1
    ∧ send_text_to_target
        ⟨⟨5, strL ("g"), strL ("group"), true⟩, some 0, some (strL ("T"))⟩ (strL ("hi"))
        = [SendCall.plain 5 (strL ("hi"))] :=
  ⟨rfl, by decide, rfl⟩

/-- Claim C4 as amended: `send_text_to_target` issues exactly one external
send call per invocation; it is a reply-style send addressed to the
sub-conversation id within the parent conversation exactly when that id is
present, non-zero and not equal to 1, and a plain send to the parent
otherwise — in particular, sub-id 1, sub-id 0 and no sub-id route
identically. -/
theorem claim_c4_routing :
    (∀ (t : SendTarget) (text : List Char), (send_text_to_target t text).length = 1)
    ∧ (∀ (t : SendTarget) (text : List Char) (tid : Int), t.topic_id = some tid →
        tid ≠ 0 → tid ≠ 1 →
        send_text_to_target t text = [SendCall.reply t.dialog.id text tid])
    ∧ (∀ (d : DialogInfo) (tt : Option (List Char)) (text : List Char),
        send_text_to_target ⟨d, some 1, tt⟩ text = [SendCall.plain d.id text]
        ∧ send_text_to_target ⟨d, some 0, tt⟩ text = [SendCall.plain d.id text]
        ∧ send_text_to_target ⟨d, none, tt⟩ text = [SendCall.plain d.id text]) := by
  refine ⟨?_, ?_, ?_⟩
  · intro t text
    rcases ht : t.topic_id with _ | tid
    · simp [send_text_to_target, ht]
    · simp only [send_text_to_target, ht]
      split_ifs <;> simp
  · intro t text tid ht h0 h1
    simp [send_text_to_target, ht, h0, h1]
  · intro d tt text
    refine ⟨?_, ?_, ?_⟩ <;> simp [send_text_to_target]

/-- Witness for `claim_c4_routing`: a genuine sub-conversation id (2) gives a
reply-style send. -/
theorem claim_c4_routing_witness :
    send_text_to_target ⟨⟨5, strL ("g"), strL ("group"), true⟩, some 2, none⟩ (strL ("hi"))
      = [SendCall.reply 5 (strL ("hi")) 2] :=
  claim_c4_routing.2.1 ⟨⟨5, strL ("g"), strL ("group"), true⟩, some 2, none⟩ (strL ("hi")) 2
    rfl (by decide) (by decide)

/-- Claim C8: cancelling a job's execution unit during its suspension, before
the due time has elapsed (`corrected_now < when`, i.e. `delay > 0`), makes
the unit exit with no send call, no status report, and no exception
propagating to the task runner. -/
theorem claim_c8_cancel_no_effects (now : DateTime) (sendFails : Bool)
    (job : ScheduledJob) (hdue : dtLtB now job.when = true) :
    run_job now SleepOutcome.cancelled sendFails job
      = { sends := [], status := none, raised := false } := by
  unfold run_job
  rw [if_pos hdue]

/-- Witness for `claim_c8_cancel_no_effects` at a concrete job due tomorrow. -/
theorem claim_c8_cancel_no_effects_witness :
    run_job ⟨2024, 1, 1, 0, 0, 0⟩ SleepOutcome.cancelled false
        ⟨⟨⟨5, strL ("g"), strL ("group"), false⟩, none, none⟩, strL ("hi"),
          ⟨2024, 1, 2, 0, 0, 0⟩⟩
      = { sends := [], status := none, raised := false } :=
  claim_c8_cancel_no_effects ⟨2024, 1, 1, 0, 0, 0⟩ false
    ⟨⟨⟨5, strL ("g"), strL ("group"), false⟩, none, none⟩, strL ("hi"),
      ⟨2024, 1, 2, 0, 0, 0⟩⟩ (by decide)

/-- Claim C10: an execution unit's completion (success, failure or
cancellation) leaves the pending-job list untouched; scheduling only appends;
and the cleanup sweep keeps exactly the jobs whose due time is strictly after
corrected-now. -/
theorem claim_c10_job_list_frame :
    (∀ (s : SchedState) (j : ScheduledJob) (o : JobOutcome),
        applySchedOp s (SchedOp.opJobDone j o) = s)
    ∧ (∀ (s : SchedState) (j : ScheduledJob),
        (applySchedOp s (SchedOp.opSchedule j)).jobs = s.jobs ++ [j])
    ∧ (∀ (s : SchedState) (now : DateTime) (x : ScheduledJob),
        x ∈ (applySchedOp s (SchedOp.opSweep now)).jobs
          ↔ x ∈ s.jobs ∧ dtLtB now x.when = true) := by
  refine ⟨fun s j o => rfl, fun s j => rfl, fun s now x => ?_⟩
  simp [applySchedOp, List.mem_filter]

/-- Witness for `claim_c3_rollover`: the general rollover rule applied to the
spec's first example input. -/
theorem claim_c3_rollover_witness :
    schedule_message_from_ui ⟨2024, 1, 1, 10, 0, 0⟩ ⟨2024, 1, 1⟩
        (strL ("09:00")) (strL ("hi"))
      = some (if ((strL ("09:00")).contains ':' = true
                    ∧ (strL ("09:00")).contains ' ' = false
                    ∧ (pyStrip (strL ("09:00"))).length ≤ 8)
                  ∧ dtLtB ⟨2024, 1, 1, 10, 0, 0⟩ ⟨2024, 1, 1, 9, 0, 0⟩ = false
              then addOneDay ⟨2024, 1, 1, 9, 0, 0⟩ else ⟨2024, 1, 1, 9, 0, 0⟩) :=
  claim_c3_rollover.1 ⟨2024, 1, 1, 10, 0, 0⟩ ⟨2024, 1, 1⟩ (strL ("09:00")) (strL ("hi"))
    ⟨2024, 1, 1, 9, 0, 0⟩ (by decide) (by decide)

/-- Witness for `claim_c9_formats_agree` at a concrete today. -/
theorem claim_c9_formats_agree_witness :
    parse_datetime ⟨2024, 1, 1⟩ (strL ("2030-01-15 09:30")) = some ⟨2030, 1, 15, 9, 30, 0⟩
    ∧ parse_datetime ⟨2024, 1, 1⟩ (strL ("15.01.2030 09:30")) = some ⟨2030, 1, 15, 9, 30, 0⟩ :=
  claim_c9_formats_agree ⟨2024, 1, 1⟩

/-- Witness for `claim_c10_job_list_frame` at a concrete state and job. -/
theorem claim_c10_job_list_frame_witness :
    applySchedOp ⟨[⟨⟨⟨5, strL ("g"), strL ("group"), false⟩, none, none⟩, strL ("hi"),
        ⟨2024, 1, 2, 0, 0, 0⟩⟩]⟩
      (SchedOp.opJobDone ⟨⟨⟨5, strL ("g"), strL ("group"), false⟩, none, none⟩, strL ("hi"),
        ⟨2024, 1, 2, 0, 0, 0⟩⟩ JobOutcome.cancelledEarly)
      = ⟨[⟨⟨⟨5, strL ("g"), strL ("group"), false⟩, none, none⟩, strL ("hi"),
        ⟨2024, 1, 2, 0, 0, 0⟩⟩]⟩ :=
  claim_c10_job_list_frame.1 ⟨[⟨⟨⟨5, strL ("g"), strL ("group"), false⟩, none, none⟩,
    strL ("hi"), ⟨2024, 1, 2, 0, 0, 0⟩⟩]⟩
    ⟨⟨⟨5, strL ("g"), strL ("group"), false⟩, none, none⟩, strL ("hi"),
      ⟨2024, 1, 2, 0, 0, 0⟩⟩ JobOutcome.cancelledEarly

end Shellgramm
